import Mathlib

/-
Verification development for the Self-Heal remediation orchestrator.

Shallow embedding of the healing subsystem:
  * Healer.applyPatternFix, the per-issue fix step and the write-failure
    demotion (src/unnamed/part_005, src/src/multi-pass-healer.js),
  * Validator.validateFix (src/unnamed/part_005, third section),
  * MultiPassHealer.applyFixes pass loop (src/src/multi-pass-healer.js),
  * RollbackManager session and backup store (src/unnamed/part_004).

External collaborators (regex engine, AI fix provider, shell commands,
raw filesystem write success) are modelled as explicit oracle parameters;
everything else is translated from the JavaScript source.
-/

namespace SelfHeal

/-- PatternFix mirrors the fix object read by Healer.applyPatternFix:
a type tag plus the fields used by each branch (find and replacement for
the replace branch, line and replacement for the insert and delete
branches). -/
structure PatternFix where
  type : String
  find : String
  replacement : String
  line : Int
deriving DecidableEq

/-- Issue mirrors the fields of a scanner issue that the healing code
reads: file, line, message, source and the optional fix object. A missing
fix (JS null or undefined, falsy in the `issue.fix` test) is `none`. -/
structure Issue where
  file : String
  line : Int
  message : String
  source : String
  fix : Option PatternFix
deriving DecidableEq

/-! ### JS stable sort

`Array.prototype.sort` with a consistent comparator is a stable sort.
Both healers sort with the comparator `(a, b) => b.line - a.line`,
that is: `a` precedes `b` exactly when `b.line ≤ a.line`, ties keeping
the original order. We embed this as a stable insertion sort over a
boolean `le` relation. -/

/-- jsInsert places `a` before the first element `b` of the (already
sorted) list with `le a b`; ties therefore keep the earlier element
first, matching stable sorting. -/
def jsInsert {α : Type} (le : α → α → Bool) (a : α) : List α → List α
  | [] => [a]
  | b :: l => if le a b then a :: b :: l else b :: jsInsert le a l

/-- jsSort is the stable insertion sort induced by jsInsert. For a
consistent comparator it computes the same output as the (stable) JS
`Array.prototype.sort`. -/
def jsSort {α : Type} (le : α → α → Bool) : List α → List α
  | [] => []
  | a :: l => jsInsert le a (jsSort le l)

theorem jsInsert_perm {α : Type} (le : α → α → Bool) (a : α) :
    ∀ l : List α, (jsInsert le a l).Perm (a :: l) := by
  intro l
  induction l with
  | nil => simp [jsInsert]
  | cons b l ih =>
    by_cases h : le a b
    · simp [jsInsert, h]
    · simp only [jsInsert, h, if_neg, Bool.false_eq_true, not_false_iff, if_false]
      exact (ih.cons b).trans (List.Perm.swap a b l)

theorem jsSort_perm {α : Type} (le : α → α → Bool) :
    ∀ l : List α, (jsSort le l).Perm l := by
  intro l
  induction l with
  | nil => simp [jsSort]
  | cons a l ih =>
    exact (jsInsert_perm le a (jsSort le l)).trans (ih.cons a)

theorem jsInsert_pairwise {α : Type} (le : α → α → Bool)
    (htot : ∀ a b, le a b = false → le b a = true)
    (htrans : ∀ a b c, le a b = true → le b c = true → le a c = true)
    (a : α) :
    ∀ l : List α, l.Pairwise (fun x y => le x y = true) →
      (jsInsert le a l).Pairwise (fun x y => le x y = true) := by
  intro l
  induction l with
  | nil => intro _; simp [jsInsert]
  | cons b l ih =>
    intro h
    rcases List.pairwise_cons.mp h with ⟨hb, hl⟩
    by_cases hab : le a b
    · simp only [jsInsert, hab, if_true]
      refine List.pairwise_cons.mpr ⟨?_, h⟩
      intro x hx
      rcases List.mem_cons.mp hx with rfl | hx
      · exact hab
      · exact htrans a b x hab (hb x hx)
    · have hba : le b a = true := htot a b (Bool.eq_false_iff.mpr hab)
      simp only [jsInsert, hab, Bool.false_eq_true, if_false]
      refine List.pairwise_cons.mpr ⟨?_, ih hl⟩
      intro x hx
      have hx2 : x ∈ a :: l := ((jsInsert_perm le a l).mem_iff).mp hx
      rcases List.mem_cons.mp hx2 with rfl | hx2
      · exact hba
      · exact hb x hx2

theorem jsSort_pairwise {α : Type} (le : α → α → Bool)
    (htot : ∀ a b, le a b = false → le b a = true)
    (htrans : ∀ a b c, le a b = true → le b c = true → le a c = true) :
    ∀ l : List α, (jsSort le l).Pairwise (fun x y => le x y = true) := by
  intro l
  induction l with
  | nil => simp [jsSort]
  | cons a l ih => exact jsInsert_pairwise le htot htrans a (jsSort le l) ih

/-! ### Intra-file issue ordering (C1)

Both MultiPassHealer.applySinglePass (line 127) and Healer.applyFixes
(line 69) compute
  `const sortedIssues = [...fileIssues].sort((a, b) => b.line - a.line);`
before the per-issue loop. -/

/-- sortIssuesByLineDesc embeds
`[...fileIssues].sort((a, b) => b.line - a.line)`: a stable sort whose
comparator puts `a` before `b` exactly when `b.line ≤ a.line`. -/
def sortIssuesByLineDesc (fileIssues : List Issue) : List Issue :=
  jsSort (fun a b => decide (b.line ≤ a.line)) fileIssues

theorem sortIssuesByLineDesc_pairwise (l : List Issue) :
    (sortIssuesByLineDesc l).Pairwise (fun a b => b.line ≤ a.line) := by
  have h := jsSort_pairwise (fun a b : Issue => decide (b.line ≤ a.line))
    (by intro a b h; simp only [decide_eq_false_iff_not, not_le] at h
        exact decide_eq_true (le_of_lt h))
    (by intro a b c h1 h2
        exact decide_eq_true (le_trans (of_decide_eq_true h2) (of_decide_eq_true h1)))
    l
  exact h.imp (fun hab => of_decide_eq_true hab)

theorem sortIssuesByLineDesc_pairwise_ne (l : List Issue)
    (h : l.Pairwise (fun a b => a.line ≠ b.line)) :
    (sortIssuesByLineDesc l).Pairwise (fun a b => a.line ≠ b.line) := by
  have hperm : (sortIssuesByLineDesc l).Perm l :=
    jsSort_perm (fun a b : Issue => decide (b.line ≤ a.line)) l
  exact (List.Perm.pairwise_iff (fun hxy => Ne.symm hxy) hperm).mpr h

/-- Two issues of the same file at the same line: the sorted list is not
strictly descending, refuting the strict form of claim C1. -/
def c1SameLineIssues : List Issue :=
  [⟨"a.txt", 5, "first message", "pattern", none⟩,
   ⟨"a.txt", 5, "second message", "pattern", none⟩]

/-- Distinct-line instance used by the witness of the amended claim C1. -/
def c1DistinctLineIssues : List Issue :=
  [⟨"a.txt", 5, "low", "pattern", none⟩,
   ⟨"a.txt", 10, "high", "pattern", none⟩]

/-- C1 counterexample: the claim says the per-file list handed to the
per-issue loop is strictly descending in line number, but with two issues
at the same line of the same file the sorted list has two equal adjacent
lines, so strict descent fails. -/
theorem C1_strict_counterexample :
    ¬ (sortIssuesByLineDesc c1SameLineIssues).Pairwise
        (fun a b => b.line < a.line) := by decide

/-- C1 (amended): the issues of a file are handed to the per-issue loop
sorted in non-increasing (descending, ties allowed) order of line number,
and when the lines of the file are pairwise distinct the order is
strictly descending, so an applied edit never shifts the position
referenced by a not-yet-processed issue at a strictly smaller line. -/
theorem C1_sortedDescending (l : List Issue) :
    (sortIssuesByLineDesc l).Pairwise (fun a b => b.line ≤ a.line) ∧
    (l.Pairwise (fun a b => a.line ≠ b.line) →
      (sortIssuesByLineDesc l).Pairwise (fun a b => b.line < a.line)) := by
  refine ⟨sortIssuesByLineDesc_pairwise l, ?_⟩
  intro hne
  have hboth := (sortIssuesByLineDesc_pairwise l).and
    (sortIssuesByLineDesc_pairwise_ne l hne)
  exact hboth.imp (fun hab => lt_of_le_of_ne hab.1 (Ne.symm hab.2))

/-- Witness for C1 at a concrete distinct-line input. -/
theorem C1_sortedDescending_witness :
    (sortIssuesByLineDesc c1DistinctLineIssues).Pairwise
      (fun a b => b.line < a.line) :=
  (C1_sortedDescending c1DistinctLineIssues).2 (by decide)

/-! ### Cross-file visiting order (C9)

Both healers build `issuesByFile` with groupIssuesByFile, a plain object
keyed by file. JS object string keys iterate in insertion order, so the
grouping is an association list in first-occurrence order of the files.
Healer.applyFixes (part_005 lines 37-43) additionally sorts the keys with
`(a, b) => issuesByFile[b].length - issuesByFile[a].length`;
MultiPassHealer.applySinglePass (lines 98-104) iterates
`Object.keys(issuesByFile)` without sorting. -/

/-- groupAdd embeds one step of groupIssuesByFile: push into the existing
bucket of the file, or append a fresh (file, [issue]) key in insertion
order. -/
def groupAdd (g : List (String × List Issue)) (i : Issue) :
    List (String × List Issue) :=
  if g.any (fun p => p.1 = i.file) then
    g.map (fun p => if p.1 = i.file then (p.1, p.2 ++ [i]) else p)
  else g ++ [(i.file, [i])]

/-- groupIssuesByFile embeds `groupIssuesByFile(issues)` of both healers. -/
def groupIssuesByFile (issues : List Issue) : List (String × List Issue) :=
  issues.foldl groupAdd []

/-- countIn reads the JS lookup `issuesByFile[k].length` against the
grouped association list. -/
def countIn (g : List (String × List Issue)) (k : String) : Nat :=
  match g.find? (fun p => p.1 = k) with
  | some p => p.2.length
  | none => 0

/-- multiPassFileOrder embeds the file iteration order of
MultiPassHealer.applySinglePass: `Object.keys(issuesByFile)`, that is the
first-occurrence order of the files, with no sort. -/
def multiPassFileOrder (issues : List Issue) : List String :=
  (groupIssuesByFile issues).map Prod.fst

/-- healerFileOrder embeds the sortedFiles computation of
Healer.applyFixes: the keys sorted stably by descending bucket length. -/
def healerFileOrder (issues : List Issue) : List String :=
  jsSort
    (fun a b => decide (countIn (groupIssuesByFile issues) b ≤
                        countIn (groupIssuesByFile issues) a))
    ((groupIssuesByFile issues).map Prod.fst)

/-- Input refuting C9 for MultiPassHealer: file f.js appears first with
one issue, file g.js has two issues. -/
def c9Issues : List Issue :=
  [⟨"f.js", 1, "m1", "pattern", none⟩,
   ⟨"g.js", 1, "m2", "pattern", none⟩,
   ⟨"g.js", 2, "m3", "pattern", none⟩]

/-- C9 counterexample: MultiPassHealer.applySinglePass visits files in
first-occurrence order, not by descending issue count: with one issue in
f.js listed first and two issues in g.js, f.js is visited before g.js
although g.js has strictly more issues. -/
theorem C9_multiPass_counterexample :
    ¬ (multiPassFileOrder c9Issues).Pairwise
        (fun a b => countIn (groupIssuesByFile c9Issues) b ≤
                    countIn (groupIssuesByFile c9Issues) a) := by decide

/-- C9 (amended): Healer.applyFixes visits files in descending order of
issue count (ties in first-occurrence order); MultiPassHealer's
applySinglePass instead visits files in first-occurrence order of the
issue list, which need not be descending by count. -/
theorem C9_healerFileOrder_sorted (issues : List Issue) :
    (healerFileOrder issues).Pairwise
      (fun a b => countIn (groupIssuesByFile issues) b ≤
                  countIn (groupIssuesByFile issues) a) := by
  have h := jsSort_pairwise
    (fun a b : String => decide (countIn (groupIssuesByFile issues) b ≤
                                 countIn (groupIssuesByFile issues) a))
    (by intro a b h; simp only [decide_eq_false_iff_not, not_le] at h
        exact decide_eq_true (le_of_lt h))
    (by intro a b c h1 h2
        exact decide_eq_true
          (le_trans (of_decide_eq_true h2) (of_decide_eq_true h1)))
    ((groupIssuesByFile issues).map Prod.fst)
  exact h.imp (fun hab => of_decide_eq_true hab)

/-! ### Healer.applyPatternFix (C10)

Lines 202-223 (and identically 395-416) of part_005. The regex engine
(`new RegExp(fix.find, "g")` followed by `content.replace`) is an
external collaborator modelled as an oracle returning either the rewritten
content or the message of the exception thrown for an invalid pattern;
the try/catch in the source converts any such exception into returning
the content unchanged. The insert and delete branches use
`Array.prototype.splice`, embedded with JS index clamping. -/

/-- jsSpliceIdx embeds the index normalisation of Array.prototype.splice:
a negative start counts from the end clamped at 0, a non-negative start is
clamped at the length. -/
def jsSpliceIdx (len : Nat) (start : Int) : Nat :=
  if start < 0 then ((len : Int) + start).toNat else min start.toNat len

/-- jsSpliceInsert embeds `lines.splice(start, 0, item)`. -/
def jsSpliceInsert (lines : List String) (start : Int) (item : String) :
    List String :=
  lines.insertIdx (jsSpliceIdx lines.length start) item

/-- jsSpliceDelete embeds `lines.splice(start, 1)`. -/
def jsSpliceDelete (lines : List String) (start : Int) : List String :=
  lines.eraseIdx (jsSpliceIdx lines.length start)

/-- applyPatternFix embeds Healer.applyPatternFix. `rx find replacement
content` is the regex oracle for
`content.replace(new RegExp(find, "g"), replacement)`; an `.error` value
is the exception caught by the try/catch, which returns the content
unchanged. A `none` fix is the falsy `!fix` early return. -/
def applyPatternFix (rx : String → String → String → Except String String)
    (content : String) (fix : Option PatternFix) : String :=
  match fix with
  | none => content
  | some f =>
    if f.type = "replace" then
      match rx f.find f.replacement content with
      | .ok r => r
      | .error _ => content
    else if f.type = "insert" then
      String.intercalate "\n" (jsSpliceInsert (content.splitOn "\n") f.line f.replacement)
    else if f.type = "delete" then
      String.intercalate "\n" (jsSpliceDelete (content.splitOn "\n") (f.line - 1))
    else content

/-- C10: applyPatternFix is total by construction (every JS exception
surface is behind the try/catch or the rx oracle) and returns the input
content unchanged when the fix is null or undefined, when the fix type is
none of replace, insert, delete, and when applying a replace fix raises
an error (for example an invalid regular expression in fix.find). -/
theorem C10_applyPatternFix_unchanged_on_failure
    (rx : String → String → String → Except String String)
    (content : String) (fix : Option PatternFix) :
    (fix = none → applyPatternFix rx content fix = content) ∧
    (∀ f : PatternFix, fix = some f →
      ¬(f.type = "replace" ∨ f.type = "insert" ∨ f.type = "delete") →
      applyPatternFix rx content fix = content) ∧
    (∀ (f : PatternFix) (e : String), fix = some f → f.type = "replace" →
      rx f.find f.replacement content = .error e →
      applyPatternFix rx content fix = content) := by
  refine ⟨?_, ?_, ?_⟩
  · intro h; subst h; rfl
  · intro f h hnot; subst h
    have h1 : ¬ f.type = "replace" := fun hh => hnot (Or.inl hh)
    have h2 : ¬ f.type = "insert" := fun hh => hnot (Or.inr (Or.inl hh))
    have h3 : ¬ f.type = "delete" := fun hh => hnot (Or.inr (Or.inr hh))
    simp [applyPatternFix, h1, h2, h3]
  · intro f e h ht hrx; subst h
    simp [applyPatternFix, ht, hrx]

/-- Regex oracle that always throws, modelling an invalid pattern. -/
def rxFail : String → String → String → Except String String :=
  fun _ _ _ => .error "Invalid regular expression"

/-- Regex oracle that never matches, so replace returns the content. -/
def rxNoMatch : String → String → String → Except String String :=
  fun _ _ c => .ok c

/-- Witness for C10 at concrete inputs: a missing fix, an unknown fix
type, and a replace fix whose regex oracle throws all leave the content
unchanged. -/
theorem C10_witness :
    applyPatternFix rxFail "line1" none = "line1" ∧
    applyPatternFix rxFail "line1" (some ⟨"command", "x", "y", 0⟩) = "line1" ∧
    applyPatternFix rxFail "line1" (some ⟨"replace", "(", "y", 0⟩) = "line1" :=
  ⟨(C10_applyPatternFix_unchanged_on_failure rxFail "line1" none).1 rfl,
   (C10_applyPatternFix_unchanged_on_failure rxFail "line1"
      (some ⟨"command", "x", "y", 0⟩)).2.1 ⟨"command", "x", "y", 0⟩ rfl (by decide),
   (C10_applyPatternFix_unchanged_on_failure rxFail "line1"
      (some ⟨"replace", "(", "y", 0⟩)).2.2 ⟨"replace", "(", "y", 0⟩
      "Invalid regular expression" rfl rfl rfl⟩

/-! ### Validation results (shared by C4, C5, C7) -/

/-- ValidationResult mirrors the `{valid, reason}` object of the
Validator; a JS null reason is `none`. -/
structure ValidationResult where
  valid : Bool
  reason : Option String
deriving DecidableEq

/-- jsInterp embeds JS template interpolation of a possibly-null string:
null prints as the four characters null. -/
def jsInterp : Option String → String
  | none => "null"
  | some s => s

/-! ### Per-issue fix execution (C5)

Healer.applyFixes, part_005 lines 72-102: pattern attempt first, AI
fallback, per-issue try/catch. The AI provider
`generateFix(content, fileExt, issue)` is an oracle returning the new
content or a thrown error message. -/

/-- StepOutcome is the per-issue outcome: pushed to results.fixed, or
pushed to results.unfixed with a reason string. -/
inductive StepOutcome
  | fixed
  | unfixed (reason : String)
deriving DecidableEq

/-- HealerStepRes instruments one iteration of the per-issue loop of
Healer.applyFixes with the content after the iteration, the outcome and
whether the AI provider was invoked (the control-flow branch containing
`await this.ai.generateFix`). -/
structure HealerStepRes where
  content : String
  out : StepOutcome
  aiCalled : Bool
deriving DecidableEq

/-- aiFallback embeds the AI half of the loop body: call
`ai.generateFix(content, fileExt, issue)`; a changed result is accepted
as fixed, an unchanged result is unfixed with reason
Fix could not be applied, and a thrown error is caught by the per-issue
catch and recorded as unfixed with the error text. -/
def aiFallback (ai : String → String → Issue → Except String String)
    (fileExt content : String) (issue : Issue) : HealerStepRes :=
  match ai content fileExt issue with
  | .error e => ⟨content, .unfixed ("Error: " ++ e), true⟩
  | .ok r =>
    if r ≠ content then ⟨r, .fixed, true⟩
    else ⟨content, .unfixed "Fix could not be applied", true⟩

/-- healerIssueStep embeds one iteration of the per-issue loop of
Healer.applyFixes: when the issue is a pattern issue with a fix object,
try applyPatternFix; accept a changed result without touching the AI;
otherwise fall through to aiFallback. -/
def healerIssueStep (rx : String → String → String → Except String String)
    (ai : String → String → Issue → Except String String)
    (fileExt content : String) (issue : Issue) : HealerStepRes :=
  if issue.source = "pattern" ∧ issue.fix.isSome = true then
    let fixedC := applyPatternFix rx content issue.fix
    if fixedC ≠ content then ⟨fixedC, .fixed, false⟩
    else aiFallback ai fileExt content issue
  else aiFallback ai fileExt content issue

theorem aiFallback_aiCalled
    (ai : String → String → Issue → Except String String)
    (fileExt content : String) (issue : Issue) :
    (aiFallback ai fileExt content issue).aiCalled = true := by
  unfold aiFallback
  cases h : ai content fileExt issue with
  | error e => rfl
  | ok r => by_cases hr : r = content <;> simp [hr]

/-- C5 (amended): in Healer.applyFixes, for an issue whose fix is not a
usable pattern (source not pattern, or no fix object) or whose pattern
replace leaves the current content unchanged, the AI fix provider is
invoked with (current content, file type, issue); when the provider
returns content equal to the current content the issue is marked unfixed
with reason Fix could not be applied, and when it returns different
content the issue is marked fixed with that content. (The claim as
frozen also asserts the provider fallback for MultiPassHealer, where it
fails: see the counterexample.) -/
theorem C5_healer_delegates_to_provider
    (rx : String → String → String → Except String String)
    (ai : String → String → Issue → Except String String)
    (fileExt content : String) (issue : Issue)
    (h : ¬(issue.source = "pattern" ∧ issue.fix.isSome = true) ∨
         applyPatternFix rx content issue.fix = content) :
    (healerIssueStep rx ai fileExt content issue).aiCalled = true ∧
    (∀ s : String, ai content fileExt issue = .ok s →
      (s = content →
        healerIssueStep rx ai fileExt content issue =
          ⟨content, .unfixed "Fix could not be applied", true⟩) ∧
      (s ≠ content →
        healerIssueStep rx ai fileExt content issue = ⟨s, .fixed, true⟩)) := by
  have hstep : healerIssueStep rx ai fileExt content issue =
      aiFallback ai fileExt content issue := by
    rcases h with hn | heq
    · simp [healerIssueStep, hn]
    · by_cases hc : issue.source = "pattern" ∧ issue.fix.isSome = true
      · simp [healerIssueStep, hc, heq]
      · simp [healerIssueStep, hc]
  rw [hstep]
  refine ⟨aiFallback_aiCalled ai fileExt content issue, ?_⟩
  intro s hs
  constructor
  · intro hsc; subst hsc; simp [aiFallback, hs]
  · intro hsc; simp [aiFallback, hs, hsc]

/-- mpGenerateFix embeds MultiPassHealer.generateFix (lines 199-209),
instrumented with whether the AI provider was invoked: a pattern issue
with a fix object returns the applyPatternFix result directly, with no
AI fallback even when the pattern produced no change. -/
def mpGenerateFix (rx : String → String → String → Except String String)
    (ai : String → String → Issue → Except String String)
    (fileExt content : String) (issue : Issue) :
    Except String String × Bool :=
  if issue.source = "pattern" ∧ issue.fix.isSome = true then
    (.ok (applyPatternFix rx content issue.fix), false)
  else (ai content fileExt issue, true)

/-- Pattern issue whose replace leaves the content unchanged. -/
def c5Issue : Issue :=
  ⟨"a.js", 1, "needs fix", "pattern", some ⟨"replace", "foo", "bar", 0⟩⟩

/-- AI provider that would change the content if it were invoked. -/
def c5Ai : String → String → Issue → Except String String :=
  fun c _ _ => .ok (c ++ " FIXED")

/-- C5 counterexample: in MultiPassHealer.generateFix, a pattern issue
whose replace leaves the current content unchanged is never handed to
the AI fix provider (the provider-called flag is false and the returned
content is unchanged), even though the provider would have produced
different content; applySinglePass then reports the issue unfixed with
reason Fix did not change file content instead of invoking the provider. -/
theorem C5_multiPass_counterexample :
    (mpGenerateFix rxNoMatch c5Ai "js" "var x" c5Issue).2 = false ∧
    (mpGenerateFix rxNoMatch c5Ai "js" "var x" c5Issue).1 = .ok "var x" ∧
    c5Ai "var x" "js" c5Issue = .ok "var x FIXED" :=
  ⟨by decide, by rfl, by rfl⟩

/-- Witness for C5 at concrete inputs: a delegated issue without a fix
object reaches the provider, which returns unchanged content, and the
outcome is unfixed with reason Fix could not be applied. -/
theorem C5_healer_delegates_witness :
    healerIssueStep rxNoMatch (fun c _ _ => .ok c) "js" "var x"
        ⟨"a.js", 1, "needs fix", "delegated", none⟩ =
      ⟨"var x", .unfixed "Fix could not be applied", true⟩ :=
  ((C5_healer_delegates_to_provider rxNoMatch (fun c _ _ => .ok c) "js" "var x"
      ⟨"a.js", 1, "needs fix", "delegated", none⟩
      (Or.inl (by decide))).2 "var x" rfl).1 rfl

/-! ### Per-file pass processing and write-failure demotion (C7)

MultiPassHealer.applySinglePass, lines 119-186: the per-issue loop
accumulates (updatedContent, fixedIssues, unfixed entries); afterwards, if
the content changed, the file is written; a write error demotes every
tentatively fixed issue of the file to unfixed with the write error as
reason, and nothing is pushed to fixed. -/

/-- FileRes is the contribution of one file to the pass results. -/
structure FileRes where
  fixed : List Issue
  unfixed : List (Issue × String)
deriving DecidableEq

/-- mpIssueStep embeds one iteration of the per-issue loop of
applySinglePass (lines 130-166). `genFix` is the generateFix call (its
error is the thrown exception caught by the per-issue catch), `validate`
is validator.validateFix applied to the candidate content. -/
def mpIssueStep (genFix : String → Issue → Except String String)
    (validate : String → Except String ValidationResult)
    (acc : String × List Issue × List (Issue × String)) (issue : Issue) :
    String × List Issue × List (Issue × String) :=
  match genFix acc.1 issue with
  | .error e => (acc.1, acc.2.1, acc.2.2 ++ [(issue, "Error: " ++ e)])
  | .ok fc =>
    if fc ≠ acc.1 then
      match validate fc with
      | .error e => (acc.1, acc.2.1, acc.2.2 ++ [(issue, "Error: " ++ e)])
      | .ok vr =>
        if vr.valid then (fc, acc.2.1 ++ [issue], acc.2.2)
        else (acc.1, acc.2.1,
          acc.2.2 ++ [(issue, "Validation failed: " ++ jsInterp vr.reason)])
    else (acc.1, acc.2.1, acc.2.2 ++ [(issue, "Fix did not change file content")])

/-- mpProcessFile embeds the processing of one existing file in
applySinglePass, lines 119-186: sort the issues of the file by
descending line, run the per-issue loop from the original content, then
write the updated content if it changed; `write` returns the thrown
error message on failure. On write failure every tentatively fixed issue
is pushed to unfixed with the write error; on a no-change loop nothing is
written and nothing is pushed to fixed. -/
def mpProcessFile (genFix : String → Issue → Except String String)
    (validate : String → Except String ValidationResult)
    (write : String → Option String)
    (originalContent : String) (fileIssues : List Issue) : FileRes :=
  let t := (sortIssuesByLineDesc fileIssues).foldl
    (mpIssueStep genFix validate) (originalContent, [], [])
  if t.1 ≠ originalContent then
    match write t.1 with
    | none => ⟨t.2.1, t.2.2⟩
    | some e => ⟨[], t.2.2 ++ t.2.1.map (fun i => (i, "Error writing to file: " ++ e))⟩
  else ⟨[], t.2.2⟩

/-- C7: when the final write of a file fails after in-memory fixes
succeeded, every issue tentatively marked fixed for that file in the
pass appears in the unfixed list with the write error as its reason, and
the fixed contribution of the file is empty. -/
theorem C7_writeError_demotes
    (genFix : String → Issue → Except String String)
    (validate : String → Except String ValidationResult)
    (write : String → Option String)
    (originalContent : String) (fileIssues : List Issue) (e : String)
    (hne : ((sortIssuesByLineDesc fileIssues).foldl
      (mpIssueStep genFix validate) (originalContent, [], [])).1 ≠ originalContent)
    (hw : write ((sortIssuesByLineDesc fileIssues).foldl
      (mpIssueStep genFix validate) (originalContent, [], [])).1 = some e) :
    (mpProcessFile genFix validate write originalContent fileIssues).fixed = [] ∧
    ∀ i ∈ ((sortIssuesByLineDesc fileIssues).foldl
        (mpIssueStep genFix validate) (originalContent, [], [])).2.1,
      (i, "Error writing to file: " ++ e) ∈
        (mpProcessFile genFix validate write originalContent fileIssues).unfixed := by
  simp only [mpProcessFile]
  rw [if_pos hne, hw]
  refine ⟨rfl, ?_⟩
  intro i hi
  exact List.mem_append_right _
    (List.mem_map_of_mem (fun i => (i, "Error writing to file: " ++ e)) hi)

/-- Issue used by the C7 witness. -/
def c7Issue : Issue := ⟨"a.txt", 1, "m", "delegated", none⟩

/-- generateFix oracle for the C7 witness: always appends a character. -/
def c7Gen : String → Issue → Except String String := fun c _ => .ok (c ++ "!")

/-- Validator oracle for the C7 witness: always valid. -/
def c7Val : String → Except String ValidationResult := fun _ => .ok ⟨true, none⟩

/-- Write oracle for the C7 witness: always fails with disk full. -/
def c7Write : String → Option String := fun _ => some "disk full"

/-- Witness for C7 at a concrete input where the write fails. -/
theorem C7_writeError_demotes_witness :
    (mpProcessFile c7Gen c7Val c7Write "x" [c7Issue]).fixed = [] ∧
    (c7Issue, "Error writing to file: disk full") ∈
      (mpProcessFile c7Gen c7Val c7Write "x" [c7Issue]).unfixed :=
  have h := C7_writeError_demotes c7Gen c7Val c7Write "x" [c7Issue] "disk full"
    (by decide) (by decide)
  ⟨h.1, h.2 c7Issue (by decide)⟩

/-! ### Validator gate restoration (C4)

Validator.validateFix, part_005 third section lines 501-532: write a
backup of the original next to the file, write the candidate, run the
detected checks, and in the finally block rewrite the original content
and unlink the backup. The check commands are external processes,
modelled as an oracle on the on-disk candidate content; an `.error`
value is an exception thrown while running checks, caught by the catch
block. -/

/-- VFile models the on-disk state the gate touches: the content of the
file under validation and the optional sibling backup file. -/
structure VFile where
  main : String
  backup : Option String
deriving DecidableEq

/-- validateFix embeds Validator.validateFix. The returned pair is the
ValidationResult and the on-disk state when the call returns. -/
def validateFix (runValidations : String → Except String ValidationResult)
    (originalContent fixedContent : String) (fs : VFile) :
    ValidationResult × VFile :=
  let fs1 : VFile := { fs with backup := some originalContent }
  let fs2 : VFile := { fs1 with main := fixedContent }
  let res : ValidationResult :=
    match runValidations fs2.main with
    | .ok vr => if vr.valid then ⟨true, none⟩ else ⟨false, vr.reason⟩
    | .error e => ⟨false, some ("Validation error: " ++ e)⟩
  let fs3 : VFile := { fs2 with main := originalContent, backup := none }
  (res, fs3)

/-- C4: whenever validateFix returns — validation passed, failed, or a
check raised an exception — the on-disk content of the file equals the
original content and the temporary backup file is gone: the gate never
leaves the candidate change on disk. -/
theorem C4_validateFix_restores
    (runValidations : String → Except String ValidationResult)
    (originalContent fixedContent : String) (fs : VFile) :
    ((validateFix runValidations originalContent fixedContent fs).2).main =
        originalContent ∧
    ((validateFix runValidations originalContent fixedContent fs).2).backup =
        none :=
  ⟨rfl, rfl⟩

/-! ### MultiPassHealer.applyFixes pass loop (C6)

Lines 44-76: a while loop over
`remaining.length > 0 && passNumber < maxPasses`, incrementing passNumber
first in each iteration, aggregating pass results, re-scanning and
subtracting fixed identity keys when the pass fixed something, and
clearing `remaining` (ending the loop) when it fixed nothing. The single
pass and the scanner are oracles. The loop is embedded with fuel
`maxPasses - passNumber`, which is equivalent to the guard
`passNumber < maxPasses` since passNumber rises by one per iteration.
The trace field records the per-pass results, one entry per executed
iteration, to state the iteration count. -/

/-- PassOut is the result of one applySinglePass call. -/
structure PassOut where
  fixed : List Issue
  unfixed : List (Issue × String)
deriving DecidableEq

/-- HealOut is the aggregated result of applyFixes, instrumented with
the per-iteration trace. -/
structure HealOut where
  fixed : List Issue
  unfixed : List (Issue × String)
  passes : Nat
  trace : List PassOut

/-- issueKey embeds the identity key `file:line:message` used by
filterRemainingIssues. -/
def issueKey (i : Issue) : String :=
  i.file ++ ":" ++ toString i.line ++ ":" ++ i.message

/-- filterRemainingIssues embeds MultiPassHealer.filterRemainingIssues
(lines 325-337): keep the issues whose identity key matches no fixed
issue. -/
def filterRemainingIssues (issues fixedIssues : List Issue) : List Issue :=
  issues.filter (fun i => ! fixedIssues.any (fun f => issueKey f == issueKey i))

/-- maxPassesDefault is the constructor default `this.maxPasses = 3`. -/
def maxPassesDefault : Nat := 3

/-- healLoopAux embeds the while loop of applyFixes with fuel
`maxPasses - passNumber`. -/
def healLoopAux (runPass : List Issue → PassOut) (scan : Nat → List Issue) :
    Nat → Nat → List Issue → List Issue → List (Issue × String) →
    List PassOut → HealOut
  | 0, passNumber, _, accFixed, accUnfixed, trace =>
      ⟨accFixed, accUnfixed, passNumber, trace⟩
  | fuel + 1, passNumber, remaining, accFixed, accUnfixed, trace =>
      if remaining = [] then ⟨accFixed, accUnfixed, passNumber, trace⟩
      else
        let pn := passNumber + 1
        let res := runPass remaining
        let accF := accFixed ++ res.fixed
        let accU := accUnfixed ++ res.unfixed
        let remaining2 :=
          if res.fixed = [] then [] else filterRemainingIssues (scan pn) accF
        healLoopAux runPass scan fuel pn remaining2 accF accU (trace ++ [res])

/-- applyFixesLoop embeds MultiPassHealer.applyFixes from the start of
the while loop (passNumber = 0, empty aggregates). -/
def applyFixesLoop (runPass : List Issue → PassOut) (scan : Nat → List Issue)
    (maxPasses : Nat) (issues : List Issue) : HealOut :=
  healLoopAux runPass scan maxPasses 0 issues [] [] []

theorem healLoopAux_spec (runPass : List Issue → PassOut)
    (scan : Nat → List Issue) :
    ∀ (fuel passNumber : Nat) (remaining : List Issue)
      (accFixed : List Issue) (accUnfixed : List (Issue × String))
      (trace : List PassOut),
      trace.length = passNumber →
      (∀ pr ∈ trace.dropLast, pr.fixed ≠ []) →
      (remaining ≠ [] → ∀ pr ∈ trace, pr.fixed ≠ []) →
      (healLoopAux runPass scan fuel passNumber remaining accFixed accUnfixed
          trace).passes =
        (healLoopAux runPass scan fuel passNumber remaining accFixed accUnfixed
          trace).trace.length ∧
      (healLoopAux runPass scan fuel passNumber remaining accFixed accUnfixed
          trace).passes ≤ passNumber + fuel ∧
      ∀ pr ∈ (healLoopAux runPass scan fuel passNumber remaining accFixed
          accUnfixed trace).trace.dropLast, pr.fixed ≠ [] := by
  intro fuel
  induction fuel with
  | zero =>
    intro passNumber remaining accFixed accUnfixed trace hlen hdrop _
    exact ⟨hlen.symm, Nat.le_refl _, hdrop⟩
  | succ fuel ih =>
    intro passNumber remaining accFixed accUnfixed trace hlen hdrop hall
    by_cases hrem : remaining = []
    · simp only [healLoopAux, hrem, if_true]
      exact ⟨hlen.symm, Nat.le_add_right _ _, hdrop⟩
    · simp only [healLoopAux, hrem, if_false]
      have htr : ∀ pr ∈ trace, pr.fixed ≠ [] := hall hrem
      have hlen2 : (trace ++ [runPass remaining]).length = passNumber + 1 := by
        simp [hlen]
      have hdrop2 : ∀ pr ∈ (trace ++ [runPass remaining]).dropLast,
          pr.fixed ≠ [] := by
        rw [List.dropLast_concat]
        exact htr
      have hall2 :
          (if (runPass remaining).fixed = [] then []
           else filterRemainingIssues (scan (passNumber + 1))
             (accFixed ++ (runPass remaining).fixed)) ≠ [] →
          ∀ pr ∈ trace ++ [runPass remaining], pr.fixed ≠ [] := by
        intro h4 pr hpr
        rcases List.mem_append.mp hpr with hpr | hpr
        · exact htr pr hpr
        · have hpr2 : pr = runPass remaining := by
            simpa using hpr
          subst hpr2
          intro hfix
          rw [hfix] at h4
          simp at h4
      have h := ih (passNumber + 1)
        (if (runPass remaining).fixed = [] then []
         else filterRemainingIssues (scan (passNumber + 1))
           (accFixed ++ (runPass remaining).fixed))
        (accFixed ++ (runPass remaining).fixed)
        (accUnfixed ++ (runPass remaining).unfixed)
        (trace ++ [runPass remaining]) hlen2 hdrop2 hall2
      refine ⟨h.1, ?_, h.2.2⟩
      have := h.2.1
      omega

/-- C6: applyFixesLoop terminates (it is a total function) with a passes
value that equals the number of executed loop iterations (the length of
the iteration trace), never exceeds maxPasses, and every iteration
before the last fixed at least one issue — a pass fixing zero issues
ends the loop immediately while still being counted; the constructor
default for maxPasses is 3. -/
theorem C6_convergence_bound (runPass : List Issue → PassOut)
    (scan : Nat → List Issue) (maxPasses : Nat) (issues : List Issue) :
    (applyFixesLoop runPass scan maxPasses issues).passes =
      (applyFixesLoop runPass scan maxPasses issues).trace.length ∧
    (applyFixesLoop runPass scan maxPasses issues).passes ≤ maxPasses ∧
    (∀ pr ∈ (applyFixesLoop runPass scan maxPasses issues).trace.dropLast,
      pr.fixed ≠ []) ∧
    maxPassesDefault = 3 := by
  have h := healLoopAux_spec runPass scan maxPasses 0 issues [] [] [] rfl
    (by intro pr hpr; simp at hpr)
    (by intro _ pr hpr; simp at hpr)
  exact ⟨h.1, by simpa using h.2.1, h.2.2, rfl⟩

/-- Issues and oracles for the C6 witness: the first pass fixes the
supplied issue, the rescan returns a new issue fixed in the second pass,
after which the rescan result is fully subtracted and the loop stops at
two passes. -/
def c6i1 : Issue := ⟨"a.txt", 1, "m1", "delegated", none⟩

/-- Second issue returned by the rescan oracle of the C6 witness. -/
def c6i2 : Issue := ⟨"a.txt", 2, "m2", "delegated", none⟩

/-- Pass oracle of the C6 witness: fixes everything it is given. -/
def c6Run : List Issue → PassOut := fun l => ⟨l, []⟩

/-- Scan oracle of the C6 witness. -/
def c6Scan : Nat → List Issue := fun _ => [c6i2]

/-- Witness for C6 at concrete oracles: the bound holds and the first
trace entry, which is not the last, fixed a nonempty list. -/
theorem C6_convergence_bound_witness :
    (applyFixesLoop c6Run c6Scan 3 [c6i1]).passes ≤ 3 ∧
    (⟨[c6i1], []⟩ : PassOut).fixed ≠ [] :=
  have h := C6_convergence_bound c6Run c6Scan 3 [c6i1]
  ⟨h.2.1, h.2.2.1 ⟨[c6i1], []⟩ (by decide)⟩

/-! ### RollbackManager backup and session store (C2, C3, C8)

src/unnamed/part_004. State: the persisted backup-log.json (read whole by
getBackupLog, written whole by saveBackupLog), the backup blobs in the
backup directory, and the project files. Fresh id generation
(Date.now plus random suffix) and timestamps are modelled by the
monotone counter nextId. The log file is assumed readable (the
LogCorrupt degradation path is not under these claims). -/

/-- BackupRecord mirrors one entry of log.backups. -/
structure BackupRecord where
  id : String
  originalFile : String
  backupFile : String
  timestamp : Nat
  sessionId : String
deriving DecidableEq

/-- Session mirrors one entry of log.sessions. -/
structure Session where
  id : String
  startTime : Nat
  endTime : Option Nat
  files : List String
  status : String
deriving DecidableEq

/-- BackupLog mirrors the persisted backup-log.json. -/
structure BackupLog where
  backups : List BackupRecord
  sessions : List Session
deriving DecidableEq

/-- Store is the filesystem state RollbackManager touches: the persisted
log, the backup blobs (name, bytes), the project files (path, bytes) and
the fresh-id counter. -/
structure Store where
  log : BackupLog
  blobs : List (String × String)
  projFiles : List (String × String)
  nextId : Nat
deriving DecidableEq

/-- updateFirstSession applies f to the first session with the given id,
mirroring mutation of the object returned by `sessions.find(...)`. -/
def updateFirstSession (l : List Session) (sid : String)
    (f : Session → Session) : List Session :=
  match l with
  | [] => []
  | s :: rest =>
    if s.id = sid then f s :: rest else s :: updateFirstSession rest sid f

/-- setFile embeds `fs.writeFileSync(path, content)`: replace the entry
of an existing path, create a new entry otherwise. -/
def setFile (files : List (String × String)) (p c : String) :
    List (String × String) :=
  if files.any (fun q => q.1 == p) then
    files.map (fun q => if q.1 == p then (p, c) else q)
  else files ++ [(p, c)]

/-- lastComponentAux scans characters, restarting the accumulator after
every slash. -/
def lastComponentAux : List Char → List Char → List Char
  | [], acc => acc
  | c :: rest, acc =>
    if c = '/' then lastComponentAux rest []
    else lastComponentAux rest (acc ++ [c])

/-- jsBasename embeds path.basename for slash-separated paths: the part
after the last slash. -/
def jsBasename (p : String) : String := ⟨lastComponentAux p.data []⟩

/-- startSession embeds RollbackManager.startSession: append a fresh
in_progress session to the log and save it. -/
def startSession (st : Store) : String × Store :=
  let sessionId := "session-" ++ toString st.nextId
  let log1 : BackupLog := { st.log with sessions := st.log.sessions ++
    [⟨sessionId, st.nextId, none, [], "in_progress"⟩] }
  (sessionId, { st with log := log1, nextId := st.nextId + 1 })

/-- cleanupBackups embeds RollbackManager.cleanupBackups (lines 221-236):
read the persisted log, unlink the blob of every backup of the session,
filter those backups out of the log, and save the filtered log. -/
def cleanupBackups (sid : String) (st : Store) : Store :=
  let sessionBackups := st.log.backups.filter (fun b => b.sessionId == sid)
  let blobs1 := st.blobs.filter
    (fun p => ! sessionBackups.any (fun b => b.backupFile == p.1))
  let backups1 := st.log.backups.filter (fun b => ! (b.sessionId == sid))
  let log1 : BackupLog := { st.log with backups := backups1 }
  { st with blobs := blobs1, log := log1 }

/-- endSession embeds RollbackManager.endSession (lines 57-72). The
local `log` snapshot is read before cleanupBackups runs; the final
saveBackupLog writes that snapshot (with the session marked) wholesale,
after cleanupBackups has saved its own filtered log. -/
def endSession (sid : String) (success : Bool) (st : Store) : Store :=
  match st.log.sessions.find? (fun s => s.id == sid) with
  | none => st
  | some _ =>
    let sessions1 := updateFirstSession st.log.sessions sid
      (fun s => { s with endTime := some st.nextId,
                         status := if success then "completed" else "rolled_back" })
    let log1 : BackupLog := { st.log with sessions := sessions1 }
    let st1 := if success then cleanupBackups sid st else st
    { st1 with log := log1 }

/-- backupFile embeds RollbackManager.backupFile (lines 80-119): throw
on a missing file, copy the bytes to a fresh blob, append a BackupRecord,
add the file to the session file set when absent, save. -/
def backupFile (filePath sid : String) (st : Store) :
    Except String (String × Store) :=
  match st.projFiles.find? (fun p => p.1 == filePath) with
  | none => .error ("File not found: " ++ filePath)
  | some pr =>
    let backupId := "backup-" ++ toString st.nextId
    let backupName := backupId ++ "-" ++ jsBasename filePath
    let blobs1 := st.blobs ++ [(backupName, pr.2)]
    let backups1 := st.log.backups ++ [⟨backupId, filePath, backupName, st.nextId, sid⟩]
    let log1 : BackupLog := { st.log with backups := backups1 }
    let sessions2 :=
      match log1.sessions.find? (fun s => s.id == sid) with
      | some s =>
        if s.files.contains filePath then log1.sessions
        else updateFirstSession log1.sessions sid
          (fun s => { s with files := s.files ++ [filePath] })
      | none => log1.sessions
    let log2 : BackupLog := { log1 with sessions := sessions2 }
    .ok (backupId, { st with blobs := blobs1, log := log2, nextId := st.nextId + 1 })

/-- backupStore is the store after a backupFile call, unchanged when the
call threw. -/
def backupStore (filePath sid : String) (st : Store) : Store :=
  match backupFile filePath sid st with
  | .ok pr => pr.2
  | .error _ => st

/-- ApplyFixRes mirrors the result object of RollbackManager.applyFix. -/
structure ApplyFixRes where
  success : Bool
  backupId : Option String
  error : Option String
deriving DecidableEq

/-- applyFix embeds RollbackManager.applyFix (lines 128-148): backup
first, then overwrite; a backupFile throw is caught and reported. -/
def applyFix (filePath newContent sid : String) (st : Store) :
    ApplyFixRes × Store :=
  match backupFile filePath sid st with
  | .error e => (⟨false, none, some e⟩, st)
  | .ok (bid, st1) =>
    (⟨true, some bid, none⟩,
     { st1 with projFiles := setFile st1.projFiles filePath newContent })

/-- rollbackFile embeds RollbackManager.rollbackFile (lines 155-175):
false for an unknown backup id, false when the blob copy throws (blob
missing), true after restoring the bytes. -/
def rollbackFile (backupId : String) (st : Store) : Bool × Store :=
  match st.log.backups.find? (fun b => b.id == backupId) with
  | none => (false, st)
  | some b =>
    match st.blobs.find? (fun p => p.1 == b.backupFile) with
    | none => (false, st)
    | some pr => (true, { st with projFiles := setFile st.projFiles b.originalFile pr.2 })

/-- rollbackSession embeds RollbackManager.rollbackSession (lines
182-215): restore the session backups in reverse chronological order,
then mark the session rolled_back in the log snapshot and save it. -/
def rollbackSession (sid : String) (st : Store) :
    (Nat × Nat × Nat) × Store :=
  let sessionBackups := jsSort (fun a b => decide (b.timestamp ≤ a.timestamp))
    (st.log.backups.filter (fun b => b.sessionId == sid))
  let r := sessionBackups.foldl
    (fun (acc : Nat × Nat × Store) b =>
      let res := rollbackFile b.id acc.2.2
      if res.1 then (acc.1 + 1, acc.2.1, res.2) else (acc.1, acc.2.1 + 1, res.2))
    (0, 0, st)
  let sessions1 := updateFirstSession st.log.sessions sid
    (fun s => { s with status := "rolled_back", endTime := some st.nextId })
  let log1 : BackupLog := { st.log with sessions := sessions1 }
  let st4 :=
    match st.log.sessions.find? (fun s => s.id == sid) with
    | some _ => { r.2.2 with log := log1 }
    | none => r.2.2
  ((r.1, r.2.1, sessionBackups.length), st4)

/-- sessionStatus reads the status of the first session with the id. -/
def sessionStatus (st : Store) (sid : String) : Option String :=
  (st.log.sessions.find? (fun s => s.id == sid)).map (fun s => s.status)

/-- sessionFilesOf reads the file set of the first session with the id. -/
def sessionFilesOf (st : Store) (sid : String) : Option (List String) :=
  (st.log.sessions.find? (fun s => s.id == sid)).map (fun s => s.files)

/-- recordsFor counts the BackupRecords of a (file, session) pair in the
persisted log. -/
def recordsFor (st : Store) (f sid : String) : Nat :=
  (st.log.backups.filter
    (fun b => b.originalFile == f && b.sessionId == sid)).length

/-! ### Concrete store scenario shared by the store claims -/

/-- Base store: one project file, empty log, empty backup directory. -/
def baseStore : Store := ⟨⟨[], []⟩, [], [("a.txt", "original text")], 0⟩

/-- Session id produced by startSession on baseStore. -/
def sidA : String := "session-0"

/-- Store after startSession. -/
def stSession : Store := (startSession baseStore).2

/-- Store after one backupFile of a.txt in the session. -/
def stBackup1 : Store := backupStore "a.txt" sidA stSession

/-- Store after a second backupFile of the same file in the same
session. -/
def stBackup2 : Store := backupStore "a.txt" sidA stBackup1

/-- Store after endSession(sidA, true) on the singly backed-up store. -/
def stEnd : Store := endSession sidA true stBackup1

/-- Store after a second endSession(sidA, false) on the completed
session. -/
def stEnd2 : Store := endSession sidA false stEnd

/-- C2: evaluation at the failing input. After endSession(S, true) on a
session with one backed-up file, the session is marked completed, the
backup blob is deleted and the project file keeps its content — but one
BackupRecord referencing S remains in the persisted log, because
endSession saves its pre-cleanup log snapshot over the filtered log that
cleanupBackups saved, losing the record deletion. -/
theorem C2_endSession_keeps_records :
    sessionStatus stEnd sidA = some "completed" ∧
    stEnd.blobs = [] ∧
    stEnd.projFiles = baseStore.projFiles ∧
    recordsFor stEnd "a.txt" sidA = 1 := by decide

/-- C3 counterexample: a second backupFile call for the same (file,
session) creates a second BackupRecord and a second backup blob; only
the session file set stays deduplicated. -/
theorem C3_backupFile_counterexample :
    recordsFor stBackup2 "a.txt" sidA = 2 ∧
    stBackup2.blobs.length = 2 ∧
    sessionFilesOf stBackup2 sidA = some ["a.txt"] := by decide

/-- C3 (amended): backupFile is not deduplicated per (file, sessionId):
every successful call appends one fresh BackupRecord and one fresh
backup blob, even when the pair already has a backup; only the session
file set is idempotent (a file already in the set is not re-added). -/
theorem C3_backupFile_appends (st : Store) (f sid : String)
    (pr : String × String)
    (hf : st.projFiles.find? (fun p => p.1 == f) = some pr) :
    recordsFor (backupStore f sid st) f sid = recordsFor st f sid + 1 ∧
    (backupStore f sid st).blobs.length = st.blobs.length + 1 ∧
    (∀ s : Session, st.log.sessions.find? (fun x => x.id == sid) = some s →
      s.files.contains f = true →
      sessionFilesOf (backupStore f sid st) sid = sessionFilesOf st sid) := by
  refine ⟨?_, ?_, ?_⟩
  · simp [backupStore, backupFile, hf, recordsFor, List.filter_append]
  · simp [backupStore, backupFile, hf, List.length_append]
  · intro s hs hcont
    have hmem : f ∈ s.files := by simpa using hcont
    simp [backupStore, backupFile, hf, hs, hmem, sessionFilesOf]

/-- Witness for C3 at the concrete store holding one backup already. -/
theorem C3_backupFile_appends_witness :
    recordsFor (backupStore "a.txt" sidA stBackup1) "a.txt" sidA =
      recordsFor stBackup1 "a.txt" sidA + 1 ∧
    sessionFilesOf (backupStore "a.txt" sidA stBackup1) sidA =
      sessionFilesOf stBackup1 sidA :=
  have h := C3_backupFile_appends stBackup1 "a.txt" sidA
    ("a.txt", "original text") (by decide)
  ⟨h.1, h.2.2 ⟨"session-0", 0, none, ["a.txt"], "in_progress"⟩
    (by decide) (by decide)⟩

/-- C8 counterexample: a terminal status is not terminal: after
endSession(S, true) marks the session completed, a later
endSession(S, false) overwrites the status with rolled_back. -/
theorem C8_terminal_counterexample :
    sessionStatus stEnd sidA = some "completed" ∧
    sessionStatus stEnd2 sidA = some "rolled_back" := by decide

theorem find_updateFirstSession (l : List Session) (sid : String)
    (f : Session → Session) (hid : ∀ s, (f s).id = s.id) :
    (updateFirstSession l sid f).find? (fun s => s.id == sid) =
      (l.find? (fun s => s.id == sid)).map f := by
  induction l with
  | nil => rfl
  | cons s rest ih =>
    by_cases h : s.id = sid
    · have hb : (s.id == sid) = true := beq_iff_eq.mpr h
      have hb2 : ((f s).id == sid) = true := by rw [hid s]; exact hb
      simp only [updateFirstSession, if_pos h]
      simp [List.find?_cons, hb, hb2]
    · have hb : (s.id == sid) = false := by simp [h]
      simp only [updateFirstSession, if_neg h]
      simp [List.find?_cons, hb, ih]

/-- C8 (amended): terminality is not enforced by the store: for any
session present in the log, regardless of its current status (in
particular an already completed or rolled_back one), endSession(S, b)
unconditionally sets the status to completed or rolled_back according to
b, and rollbackSession(S) unconditionally sets it to rolled_back. -/
theorem C8_terminal_not_enforced (st : Store) (sid : String) (s : Session)
    (hs : st.log.sessions.find? (fun x => x.id == sid) = some s) :
    (∀ b : Bool, sessionStatus (endSession sid b st) sid =
       some (if b then "completed" else "rolled_back")) ∧
    sessionStatus (rollbackSession sid st).2 sid = some "rolled_back" := by
  constructor
  · intro b
    simp only [endSession, hs, sessionStatus]
    rw [find_updateFirstSession st.log.sessions sid
      (fun s => { s with endTime := some st.nextId,
                         status := if b then "completed" else "rolled_back" })
      (fun z => rfl), hs]
    rfl
  · simp only [rollbackSession, hs, sessionStatus]
    rw [find_updateFirstSession st.log.sessions sid
      (fun s => { s with status := "rolled_back", endTime := some st.nextId })
      (fun z => rfl), hs]
    rfl

/-- Witness for C8 at the concrete freshly started session. -/
theorem C8_terminal_not_enforced_witness :
    sessionStatus (endSession sidA true stSession) sidA = some "completed" ∧
    sessionStatus (rollbackSession sidA stSession).2 sidA =
      some "rolled_back" :=
  have h := C8_terminal_not_enforced stSession sidA
    ⟨"session-0", 0, none, [], "in_progress"⟩ (by decide)
  ⟨h.1 true, h.2⟩

end SelfHeal
